import Mathlib

/-!
Shallow embedding of the runtime metrics collector of the CrisisFlow
disaster-response platform (`backend/app/core/monitoring.py`), together with
proofs of the specification claims about it.

Modelling choices:
* Python `defaultdict`s are modelled as association lists in insertion order
  (a Python dict preserves insertion order; `defaultdict.__getitem__` on a
  missing key inserts the default at the end).
* `deque(maxlen=window_size)` is modelled as a list, oldest element first,
  with an evicting push.
* Float latencies, durations and wall-clock timestamps are modelled as exact
  rationals.  The percentile index `int(count * p)` that the source computes
  in binary floating point coincides with the exact `⌊count·p⌋` for
  `p ∈ {0.5, 0.95, 0.99}` for every count that fits in memory (the double
  nearest to 0.95 resp. 0.99 is below the exact value by less than half an
  ulp times any such count), so the exact model is faithful.
* Wall-clock readings (`time.time()`, `datetime.now()`) and `psutil` samples
  are passed in as explicit parameters.
-/

namespace Monitoring

/-- Association-list model of a Python dict, in insertion order. -/
abbrev Dict (V : Type) := List (String × V)

/-- Dict lookup (`k in m` / `m[k]` read without default insertion). -/
def alookup {V : Type} : Dict V → String → Option V
  | [], _ => none
  | (k2, v) :: rest, k => if k2 = k then some v else alookup rest k

/-- `defaultdict.__getitem__`: returns the stored value; on a missing key it
inserts the default at the end of the dict order and returns it. -/
def dget {V : Type} : Dict V → String → V → V × Dict V
  | [], k, d => (d, [(k, d)])
  | (k2, v) :: rest, k, d =>
      if k2 = k then (v, (k2, v) :: rest)
      else
        let p := dget rest k d
        (p.1, (k2, v) :: p.2)

/-- `defaultdict` read-modify-write (`m[k] = f(m[k])`, e.g. `m[k] += 1` or
an in-place `append` on the looked-up value). -/
def dupdate {V : Type} : Dict V → String → V → (V → V) → Dict V
  | [], k, d, f => [(k, f d)]
  | (k2, v) :: rest, k, d, f =>
      if k2 = k then (k2, f v) :: rest
      else (k2, v) :: dupdate rest k d f

/-- `m.keys()`, in dict (insertion) order. -/
def akeys {V : Type} (m : Dict V) : List String := m.map Prod.fst

/-- `sum(m.values())`. -/
def valsSum (m : Dict Nat) : Nat := (m.map Prod.snd).sum

/-- `deque(maxlen=W).append(x)`: appends on the right and evicts from the
left whatever exceeds the capacity `W`. -/
def dequePush (W : Nat) (w : List ℚ) (x : ℚ) : List ℚ :=
  if w.length < W then w ++ [x] else (w ++ [x]).drop (w.length + 1 - W)

/-- Python `sorted` on durations (ascending). -/
def sortAsc (l : List ℚ) : List ℚ := l.insertionSort (· ≤ ·)

/-- The resource snapshot built by `get_system_metrics` is a dict of
readings; its exact contents come from `psutil`/`torch`, outside the model. -/
abbrev SystemMetrics := Dict ℚ

/-- The mutable state of `MetricsCollector`. -/
structure MetricsCollector where
  window_size : Nat
  endpoint_latencies : Dict (List ℚ)
  model_inference_times : Dict (List ℚ)
  request_counts : Dict Nat
  error_counts : Dict Nat
  model_call_counts : Dict Nat
  start_time : ℚ
  last_reset : ℚ
  system_metrics_cache : SystemMetrics
  last_system_check : ℚ
deriving Repr, DecidableEq

/-- `MetricsCollector.__init__(window_size)` at wall-clock time `t0`. -/
def init (window_size : Nat) (t0 : ℚ) : MetricsCollector where
  window_size := window_size
  endpoint_latencies := []
  model_inference_times := []
  request_counts := []
  error_counts := []
  model_call_counts := []
  start_time := t0
  last_reset := t0
  system_metrics_cache := []
  last_system_check := 0

/-- `MetricsCollector.record_request(endpoint, latency_ms, status_code)`. -/
def record_request (c : MetricsCollector) (endpoint : String)
    (latency_ms : ℚ) (status_code : Int) : MetricsCollector :=
  { c with
    endpoint_latencies :=
      dupdate c.endpoint_latencies endpoint []
        (fun w => dequePush c.window_size w latency_ms)
    request_counts := dupdate c.request_counts endpoint 0 (· + 1)
    error_counts :=
      if status_code ≥ 400 then dupdate c.error_counts endpoint 0 (· + 1)
      else c.error_counts }

/-- `MetricsCollector.record_model_inference(model_name, inference_time_ms)`. -/
def record_model_inference (c : MetricsCollector) (model_name : String)
    (inference_time_ms : ℚ) : MetricsCollector :=
  { c with
    model_inference_times :=
      dupdate c.model_inference_times model_name []
        (fun w => dequePush c.window_size w inference_time_ms)
    model_call_counts := dupdate c.model_call_counts model_name 0 (· + 1) }

/-- The dict returned by `get_endpoint_stats`. -/
structure EndpointStats where
  endpoint : String
  total_requests : Nat
  error_count : Nat
  error_rate : ℚ
  latency_p50 : ℚ
  latency_p95 : ℚ
  latency_p99 : ℚ
  avg_latency : ℚ
deriving Repr, DecidableEq

/-- The dict returned by `get_model_stats`. -/
structure ModelStats where
  model : String
  total_calls : Nat
  avg_inference_ms : ℚ
  p95_inference_ms : ℚ
  p99_inference_ms : ℚ
deriving Repr, DecidableEq

/-- `MetricsCollector.get_endpoint_stats(endpoint)`.  Reading
`self.endpoint_latencies[endpoint]` (and, on the non-empty path, the two
counter dicts) goes through `defaultdict.__getitem__`, so it may insert
default entries: the updated state is returned alongside the stats. -/
def get_endpoint_stats (c : MetricsCollector) (endpoint : String) :
    EndpointStats × MetricsCollector :=
  let p := dget c.endpoint_latencies endpoint []
  let latencies := p.1
  let c1 := { c with endpoint_latencies := p.2 }
  if latencies.isEmpty then
    ({ endpoint := endpoint, total_requests := 0, error_count := 0
       error_rate := 0, latency_p50 := 0, latency_p95 := 0
       latency_p99 := 0, avg_latency := 0 }, c1)
  else
    let sorted_latencies := sortAsc latencies
    let count := sorted_latencies.length
    let pr := dget c1.request_counts endpoint 0
    let pe := dget c1.error_counts endpoint 0
    let c2 := { c1 with request_counts := pr.2, error_counts := pe.2 }
    ({ endpoint := endpoint
       total_requests := pr.1
       error_count := pe.1
       error_rate := if pr.1 > 0 then (pe.1 : ℚ) / (pr.1 : ℚ) else 0
       latency_p50 :=
         if count > 0 then sorted_latencies.getD (count * 50 / 100) 0 else 0
       latency_p95 :=
         if count > 0 then sorted_latencies.getD (count * 95 / 100) 0 else 0
       latency_p99 :=
         if count > 0 then sorted_latencies.getD (count * 99 / 100) 0 else 0
       avg_latency :=
         if count > 0 then latencies.sum / (count : ℚ) else 0 }, c2)

/-- `MetricsCollector.get_model_stats(model_name)`. -/
def get_model_stats (c : MetricsCollector) (model_name : String) :
    ModelStats × MetricsCollector :=
  let p := dget c.model_inference_times model_name []
  let inference_times := p.1
  let c1 := { c with model_inference_times := p.2 }
  if inference_times.isEmpty then
    ({ model := model_name, total_calls := 0, avg_inference_ms := 0
       p95_inference_ms := 0, p99_inference_ms := 0 }, c1)
  else
    let sorted_times := sortAsc inference_times
    let count := sorted_times.length
    let pc := dget c1.model_call_counts model_name 0
    let c2 := { c1 with model_call_counts := pc.2 }
    ({ model := model_name
       total_calls := pc.1
       avg_inference_ms := inference_times.sum / (count : ℚ)
       p95_inference_ms :=
         if count > 0 then sorted_times.getD (count * 95 / 100) 0 else 0
       p99_inference_ms :=
         if count > 0 then sorted_times.getD (count * 99 / 100) 0 else 0 }, c2)

/-- `MetricsCollector.get_system_metrics()` at wall-clock time `now`; the
fresh `psutil`/`torch` readings that a real sample would produce are passed
in as `sample`. -/
def get_system_metrics (c : MetricsCollector) (now : ℚ)
    (sample : SystemMetrics) : SystemMetrics × MetricsCollector :=
  if now - c.last_system_check < 5 then (c.system_metrics_cache, c)
  else
    (sample,
     { c with system_metrics_cache := sample, last_system_check := now })

/-- The dict returned by `get_summary` (the derived string fields
`uptime_formatted` and `timestamp`, pure formatting of values already
present, are not modelled). -/
structure Summary where
  uptime_seconds : ℚ
  total_requests : Nat
  total_errors : Nat
  overall_error_rate : ℚ
  requests_per_second : ℚ
  endpoints : Dict EndpointStats
  models : Dict ModelStats
  system : SystemMetrics
deriving Repr, DecidableEq

/-- The `for endpoint in self.endpoint_latencies.keys()` loop of
`get_summary`, threading the registry state through each
`get_endpoint_stats` call. -/
def endpointStatsAll (keys : List String) (c : MetricsCollector) :
    Dict EndpointStats × MetricsCollector :=
  match keys with
  | [] => ([], c)
  | k :: ks =>
      let p := get_endpoint_stats c k
      let q := endpointStatsAll ks p.2
      ((k, p.1) :: q.1, q.2)

/-- The `for model_name in self.model_inference_times.keys()` loop of
`get_summary`. -/
def modelStatsAll (keys : List String) (c : MetricsCollector) :
    Dict ModelStats × MetricsCollector :=
  match keys with
  | [] => ([], c)
  | k :: ks =>
      let p := get_model_stats c k
      let q := modelStatsAll ks p.2
      ((k, p.1) :: q.1, q.2)

/-- `MetricsCollector.get_summary()` at wall-clock time `now`, with `sample`
the fresh resource readings `get_system_metrics` would take on a cache
miss. -/
def get_summary (c : MetricsCollector) (now : ℚ) (sample : SystemMetrics) :
    Summary × MetricsCollector :=
  let uptime := now - c.start_time
  let pe := endpointStatsAll (akeys c.endpoint_latencies) c
  let pm := modelStatsAll (akeys pe.2.model_inference_times) pe.2
  let c2 := pm.2
  let total_requests := valsSum c2.request_counts
  let total_errors := valsSum c2.error_counts
  let ps := get_system_metrics c2 now sample
  ({ uptime_seconds := uptime
     total_requests := total_requests
     total_errors := total_errors
     overall_error_rate :=
       if total_requests > 0 then (total_errors : ℚ) / (total_requests : ℚ)
       else 0
     requests_per_second :=
       if uptime > 0 then (total_requests : ℚ) / uptime else 0
     endpoints := pe.1
     models := pm.1
     system := ps.1 }, ps.2)

/-- `MetricsCollector.reset_metrics()` at wall-clock time `now`
(`dict.clear()` on all five dicts, then `last_reset = datetime.now()`). -/
def reset_metrics (c : MetricsCollector) (now : ℚ) : MetricsCollector :=
  { c with
    endpoint_latencies := []
    model_inference_times := []
    request_counts := []
    error_counts := []
    model_call_counts := []
    last_reset := now }

/-- The `sync_wrapper` (and, identically up to `await`, `async_wrapper`)
produced by the `monitor_endpoint(endpoint_name)` decorator: the wrapped
no-argument callable either returns a value or raises, `elapsed_ms` is the
measured wall-clock time; the `finally` block records exactly once, with
status 200 on success and 500 on an exception, which is re-raised. -/
def monitor_endpoint_wrap {α : Type} (endpoint_name : String)
    (func : Unit → Except String α) (elapsed_ms : ℚ)
    (c : MetricsCollector) : Except String α × MetricsCollector :=
  match func () with
  | .ok r => (.ok r, record_request c endpoint_name elapsed_ms 200)
  | .error e => (.error e, record_request c endpoint_name elapsed_ms 500)

/-- The `sync_wrapper` (and, identically up to `await`, `async_wrapper`)
produced by the `monitor_model_inference(model_name)` decorator: the
`finally` block records the elapsed time exactly once regardless of outcome,
and the result or exception propagates unmodified. -/
def monitor_model_inference_wrap {α : Type} (model_name : String)
    (func : Unit → Except String α) (elapsed_ms : ℚ)
    (c : MetricsCollector) : Except String α × MetricsCollector :=
  match func () with
  | .ok r => (.ok r, record_model_inference c model_name elapsed_ms)
  | .error e => (.error e, record_model_inference c model_name elapsed_ms)

/-! ### Observers and spec-side definitions -/

/-- The current window of a key (empty for an unknown key). -/
def windowOf (c : MetricsCollector) (k : String) : List ℚ :=
  (alookup c.endpoint_latencies k).getD []

/-- The current model-inference window of a key. -/
def modelWindowOf (c : MetricsCollector) (k : String) : List ℚ :=
  (alookup c.model_inference_times k).getD []

/-- A counter value (0 for an unknown key). -/
def lookup0 (m : Dict Nat) (k : String) : Nat := (alookup m k).getD 0

/-- The all-zero `EndpointStats` shape for an unobserved key. -/
def zeroEndpointStats (endpoint : String) : EndpointStats where
  endpoint := endpoint
  total_requests := 0
  error_count := 0
  error_rate := 0
  latency_p50 := 0
  latency_p95 := 0
  latency_p99 := 0
  avg_latency := 0

/-- The all-zero `ModelStats` shape for an unobserved key. -/
def zeroModelStats (model : String) : ModelStats where
  model := model
  total_calls := 0
  avg_inference_ms := 0
  p95_inference_ms := 0
  p99_inference_ms := 0

/-- Modelled from the spec: the nearest-rank percentile of §4.3 — sort the
samples ascending and return the element at index `⌊p·count⌋` clamped to
`[0, count−1]`, with `p` given as `num/100`. -/
def nearestRank (l : List ℚ) (num : Nat) : ℚ :=
  (sortAsc l).getD (min (l.length * num / 100) (l.length - 1)) 0

/-- One public registry operation, for stating properties that hold after
any sequence of calls. -/
inductive Op where
  | recordRequest (endpoint : String) (latency_ms : ℚ) (status_code : Int)
  | recordModelInference (model_name : String) (t : ℚ)
  | getEndpointStats (endpoint : String)
  | getModelStats (model_name : String)
  | resetMetrics (now : ℚ)
deriving Repr, DecidableEq

/-- Apply one operation to the registry state. -/
def applyOp (c : MetricsCollector) : Op → MetricsCollector
  | .recordRequest e l s => record_request c e l s
  | .recordModelInference m t => record_model_inference c m t
  | .getEndpointStats e => (get_endpoint_stats c e).2
  | .getModelStats m => (get_model_stats c m).2
  | .resetMetrics now => reset_metrics c now

/-- Apply a sequence of operations, oldest first. -/
def applyOps (c : MetricsCollector) (ops : List Op) : MetricsCollector :=
  ops.foldl applyOp c

/-- Record a list of request samples to one endpoint, all with status 200. -/
def recordAll (c : MetricsCollector) (e : String) (samples : List ℚ) :
    MetricsCollector :=
  samples.foldl (fun st x => record_request st e x 200) c

/-- Record a list of inference-time samples to one model key. -/
def recordAllModel (c : MetricsCollector) (m : String) (samples : List ℚ) :
    MetricsCollector :=
  samples.foldl (fun st x => record_model_inference st m x) c

/-- Every rolling window respects the capacity bound. -/
def WindowsLE (c : MetricsCollector) : Prop :=
  (∀ p ∈ c.endpoint_latencies, (Prod.snd p).length ≤ c.window_size) ∧
  (∀ p ∈ c.model_inference_times, (Prod.snd p).length ≤ c.window_size)

/-- Every key's error counter is bounded by its request counter. -/
def ErrorsLE (c : MetricsCollector) : Prop :=
  ∀ k, lookup0 c.error_counts k ≤ lookup0 c.request_counts k

/-- Does this operation record a request to endpoint `k`? -/
def recordsEndpoint (op : Op) (k : String) : Bool :=
  match op with
  | .recordRequest e _ _ => e == k
  | _ => false

/-- Does this operation record an inference time for model `k`? -/
def recordsModel (op : Op) (k : String) : Bool :=
  match op with
  | .recordModelInference m _ => m == k
  | _ => false

/-! ### Dictionary lemmas -/

theorem alookup_dupdate_self {V : Type} (m : Dict V) (k : String) (d : V)
    (f : V → V) :
    alookup (dupdate m k d f) k = some (f ((alookup m k).getD d)) := by
  induction m with
  | nil => simp [dupdate, alookup]
  | cons p rest ih =>
      obtain ⟨k2, v⟩ := p
      by_cases h : k2 = k
      · simp [dupdate, alookup, h]
      · simp [dupdate, alookup, h, ih]

theorem alookup_dupdate_ne {V : Type} (m : Dict V) (k k9 : String) (d : V)
    (f : V → V) (h : k9 ≠ k) :
    alookup (dupdate m k d f) k9 = alookup m k9 := by
  induction m with
  | nil => simp [dupdate, alookup, Ne.symm h]
  | cons p rest ih =>
      obtain ⟨k2, v⟩ := p
      by_cases h2 : k2 = k
      · subst h2
        simp [dupdate, alookup, Ne.symm h]
      · by_cases h3 : k2 = k9 <;> simp [dupdate, alookup, h, h2, h3, ih]

theorem dget_fst {V : Type} (m : Dict V) (k : String) (d : V) :
    (dget m k d).1 = (alookup m k).getD d := by
  induction m with
  | nil => simp [dget, alookup]
  | cons p rest ih =>
      obtain ⟨k2, v⟩ := p
      by_cases h : k2 = k <;> simp [dget, alookup, h, ih]

theorem alookup_dget_snd {V : Type} (m : Dict V) (k k9 : String) (d : V) :
    alookup (dget m k d).2 k9 =
      if k9 = k then some ((alookup m k).getD d) else alookup m k9 := by
  induction m with
  | nil =>
      by_cases h : k9 = k
      · simp [dget, alookup, h]
      · simp [dget, alookup, h, Ne.symm h]
  | cons p rest ih =>
      obtain ⟨k2, v⟩ := p
      by_cases h : k2 = k
      · subst h
        by_cases h2 : k9 = k2
        · simp [dget, alookup, h2]
        · simp [dget, alookup, h2, Ne.symm h2]
      · by_cases h2 : k2 = k9
        · have h3 : ¬k9 = k := by
            intro hh
            exact h (h2.trans hh)
          simp [dget, alookup, h, h2, h3]
        · simp [dget, alookup, h, h2, ih]

theorem getD_alookup_dget {V : Type} (m : Dict V) (k k9 : String) (d : V) :
    (alookup (dget m k d).2 k9).getD d = (alookup m k9).getD d := by
  rw [alookup_dget_snd]
  by_cases h : k9 = k
  · subst h; simp
  · simp [h]

theorem lookup0_dget0 (m : Dict Nat) (k k9 : String) :
    lookup0 (dget m k 0).2 k9 = lookup0 m k9 := by
  unfold lookup0
  exact getD_alookup_dget m k k9 0

theorem valsSum_dget0 (m : Dict Nat) (k : String) :
    valsSum (dget m k 0).2 = valsSum m := by
  induction m with
  | nil => simp [dget, valsSum]
  | cons p rest ih =>
      obtain ⟨k2, v⟩ := p
      by_cases h : k2 = k
      · simp [dget, valsSum, h]
      · simp [dget, valsSum, h]
        simpa [valsSum] using ih

theorem dget_forall {V : Type} (P : V → Prop) (m : Dict V) (k : String)
    (d : V) (hm : ∀ p ∈ m, P p.2) (hd : P d) :
    ∀ p ∈ (dget m k d).2, P p.2 := by
  induction m with
  | nil =>
      intro p hp
      simp [dget] at hp
      subst hp
      exact hd
  | cons q rest ih =>
      obtain ⟨k2, v⟩ := q
      by_cases h : k2 = k
      · simpa [dget, h] using hm
      · intro p hp
        simp [dget, h] at hp
        rcases hp with hp | hp
        · subst hp
          exact hm (k2, v) (by simp)
        · exact ih (fun q hq => hm q (by simp [hq])) p hp

theorem dupdate_forall {V : Type} (P : V → Prop) (m : Dict V) (k : String)
    (d : V) (f : V → V) (hm : ∀ p ∈ m, P p.2) (hd : P (f d))
    (hf : ∀ v, P v → P (f v)) :
    ∀ p ∈ dupdate m k d f, P p.2 := by
  induction m with
  | nil =>
      intro p hp
      simp [dupdate] at hp
      subst hp
      exact hd
  | cons q rest ih =>
      obtain ⟨k2, v⟩ := q
      by_cases h : k2 = k
      · intro p hp
        simp [dupdate, h] at hp
        rcases hp with hp | hp
        · subst hp
          exact hf v (hm (k2, v) (by simp))
        · exact hm p (by simp [hp])
      · intro p hp
        simp [dupdate, h] at hp
        rcases hp with hp | hp
        · subst hp
          exact hm (k2, v) (by simp)
        · exact ih (fun q hq => hm q (by simp [hq])) p hp

theorem mem_akeys_of_alookup {V : Type} (m : Dict V) (k : String) (v : V)
    (h : alookup m k = some v) : k ∈ akeys m := by
  induction m with
  | nil => simp [alookup] at h
  | cons p rest ih =>
      obtain ⟨k2, v2⟩ := p
      by_cases h2 : k2 = k
      · simp [akeys, h2]
      · simp [alookup, h2] at h
        simp [akeys]
        right
        simpa [akeys] using ih h

/-! ### Window (deque) lemmas -/

theorem length_dequePush (W : Nat) (w : List ℚ) (x : ℚ) :
    (dequePush W w x).length = min (w.length + 1) W := by
  unfold dequePush
  by_cases h : w.length < W
  · rw [if_pos h]
    simp [Nat.min_eq_left h]
  · rw [if_neg h]
    push_neg at h
    simp only [List.length_drop, List.length_append, List.length_singleton]
    rw [Nat.sub_sub_self (by omega), Nat.min_eq_right (by omega)]

theorem length_dequePush_le (W : Nat) (w : List ℚ) (x : ℚ) :
    (dequePush W w x).length ≤ W := by
  rw [length_dequePush]
  exact Nat.min_le_right _ _

/-- Folding evicting pushes over a window keeps exactly the most recent
`W` elements, in insertion order. -/
theorem foldl_dequePush (W : Nat) (xs : List ℚ) (w : List ℚ)
    (hw : w.length ≤ W) :
    xs.foldl (dequePush W) w = (w ++ xs).drop (w.length + xs.length - W) := by
  induction xs generalizing w with
  | nil =>
      simp [Nat.sub_eq_zero_of_le hw]
  | cons x xs ih =>
      rw [List.foldl_cons, ih (dequePush W w x) (length_dequePush_le W w x)]
      by_cases h : w.length < W
      · have hpush : dequePush W w x = w ++ [x] := if_pos h
        rw [hpush, List.append_assoc]
        simp only [List.singleton_append, List.length_append,
          List.length_singleton, List.length_cons, List.length_nil]
        congr 1
        omega
      · push_neg at h
        have hW : w.length = W := Nat.le_antisymm hw h
        have hpush : dequePush W w x = (w ++ [x]).drop 1 := by
          unfold dequePush
          rw [if_neg (by omega)]
          congr 1
          omega
        have hlen : ((w ++ [x]).drop 1).length = W := by
          simp [List.length_drop, hW]
        rw [hpush, hlen]
        have h1 : W + xs.length - W = xs.length := by omega
        rw [h1]
        rw [← @List.drop_append_of_le_length _ (w ++ [x]) xs 1 (by simp)]
        rw [List.drop_drop, List.append_assoc]
        simp only [List.singleton_append, List.length_cons]
        congr 1
        omega

/-! ### Field characterisations of the registry operations -/

theorem get_endpoint_stats_snd_latencies (c : MetricsCollector) (e : String) :
    (get_endpoint_stats c e).2.endpoint_latencies =
      (dget c.endpoint_latencies e []).2 := by
  unfold get_endpoint_stats
  dsimp only
  split <;> rfl

theorem get_endpoint_stats_snd_models (c : MetricsCollector) (e : String) :
    (get_endpoint_stats c e).2.model_inference_times =
      c.model_inference_times := by
  unfold get_endpoint_stats
  dsimp only
  split <;> rfl

theorem get_endpoint_stats_snd_model_calls (c : MetricsCollector)
    (e : String) :
    (get_endpoint_stats c e).2.model_call_counts = c.model_call_counts := by
  unfold get_endpoint_stats
  dsimp only
  split <;> rfl

theorem get_endpoint_stats_snd_window_size (c : MetricsCollector)
    (e : String) :
    (get_endpoint_stats c e).2.window_size = c.window_size := by
  unfold get_endpoint_stats
  dsimp only
  split <;> rfl

theorem get_endpoint_stats_snd_start_time (c : MetricsCollector)
    (e : String) :
    (get_endpoint_stats c e).2.start_time = c.start_time := by
  unfold get_endpoint_stats
  dsimp only
  split <;> rfl

theorem lookup0_get_endpoint_stats_req (c : MetricsCollector) (e k : String) :
    lookup0 (get_endpoint_stats c e).2.request_counts k =
      lookup0 c.request_counts k := by
  unfold get_endpoint_stats
  dsimp only
  split
  · rfl
  · exact lookup0_dget0 c.request_counts e k

theorem lookup0_get_endpoint_stats_err (c : MetricsCollector) (e k : String) :
    lookup0 (get_endpoint_stats c e).2.error_counts k =
      lookup0 c.error_counts k := by
  unfold get_endpoint_stats
  dsimp only
  split
  · rfl
  · exact lookup0_dget0 c.error_counts e k

theorem valsSum_get_endpoint_stats_req (c : MetricsCollector) (e : String) :
    valsSum (get_endpoint_stats c e).2.request_counts =
      valsSum c.request_counts := by
  unfold get_endpoint_stats
  dsimp only
  split
  · rfl
  · exact valsSum_dget0 c.request_counts e

theorem valsSum_get_endpoint_stats_err (c : MetricsCollector) (e : String) :
    valsSum (get_endpoint_stats c e).2.error_counts =
      valsSum c.error_counts := by
  unfold get_endpoint_stats
  dsimp only
  split
  · rfl
  · exact valsSum_dget0 c.error_counts e

theorem get_model_stats_snd_times (c : MetricsCollector) (m : String) :
    (get_model_stats c m).2.model_inference_times =
      (dget c.model_inference_times m []).2 := by
  unfold get_model_stats
  dsimp only
  split <;> rfl

theorem get_model_stats_snd_latencies (c : MetricsCollector) (m : String) :
    (get_model_stats c m).2.endpoint_latencies = c.endpoint_latencies := by
  unfold get_model_stats
  dsimp only
  split <;> rfl

theorem get_model_stats_snd_req (c : MetricsCollector) (m : String) :
    (get_model_stats c m).2.request_counts = c.request_counts := by
  unfold get_model_stats
  dsimp only
  split <;> rfl

theorem get_model_stats_snd_err (c : MetricsCollector) (m : String) :
    (get_model_stats c m).2.error_counts = c.error_counts := by
  unfold get_model_stats
  dsimp only
  split <;> rfl

theorem get_model_stats_snd_window_size (c : MetricsCollector) (m : String) :
    (get_model_stats c m).2.window_size = c.window_size := by
  unfold get_model_stats
  dsimp only
  split <;> rfl

theorem get_model_stats_snd_start_time (c : MetricsCollector) (m : String) :
    (get_model_stats c m).2.start_time = c.start_time := by
  unfold get_model_stats
  dsimp only
  split <;> rfl

theorem lookup0_get_model_stats_calls (c : MetricsCollector) (m k : String) :
    lookup0 (get_model_stats c m).2.model_call_counts k =
      lookup0 c.model_call_counts k := by
  unfold get_model_stats
  dsimp only
  split
  · rfl
  · exact lookup0_dget0 c.model_call_counts m k

/-! ### Window and counter behaviour of the record operations -/

theorem windowOf_record_request_self (c : MetricsCollector) (e : String)
    (l : ℚ) (s : Int) :
    windowOf (record_request c e l s) e =
      dequePush c.window_size (windowOf c e) l := by
  unfold windowOf record_request
  dsimp only
  rw [alookup_dupdate_self]
  rfl

theorem windowOf_record_request_ne (c : MetricsCollector) (e k : String)
    (l : ℚ) (s : Int) (h : k ≠ e) :
    windowOf (record_request c e l s) k = windowOf c k := by
  unfold windowOf record_request
  dsimp only
  rw [alookup_dupdate_ne _ _ _ _ _ h]

theorem windowOf_record_model (c : MetricsCollector) (m k : String) (t : ℚ) :
    windowOf (record_model_inference c m t) k = windowOf c k := rfl

theorem windowOf_get_endpoint_stats (c : MetricsCollector) (e k : String) :
    windowOf (get_endpoint_stats c e).2 k = windowOf c k := by
  unfold windowOf
  rw [get_endpoint_stats_snd_latencies]
  exact getD_alookup_dget c.endpoint_latencies e k []

theorem windowOf_get_model_stats (c : MetricsCollector) (m k : String) :
    windowOf (get_model_stats c m).2 k = windowOf c k := by
  unfold windowOf
  rw [get_model_stats_snd_latencies]

theorem windowOf_reset (c : MetricsCollector) (now : ℚ) (k : String) :
    windowOf (reset_metrics c now) k = [] := rfl

theorem modelWindowOf_record_model_self (c : MetricsCollector) (m : String)
    (t : ℚ) :
    modelWindowOf (record_model_inference c m t) m =
      dequePush c.window_size (modelWindowOf c m) t := by
  unfold modelWindowOf record_model_inference
  dsimp only
  rw [alookup_dupdate_self]
  rfl

theorem modelWindowOf_record_model_ne (c : MetricsCollector) (m k : String)
    (t : ℚ) (h : k ≠ m) :
    modelWindowOf (record_model_inference c m t) k = modelWindowOf c k := by
  unfold modelWindowOf record_model_inference
  dsimp only
  rw [alookup_dupdate_ne _ _ _ _ _ h]

theorem modelWindowOf_record_request (c : MetricsCollector) (e k : String)
    (l : ℚ) (s : Int) :
    modelWindowOf (record_request c e l s) k = modelWindowOf c k := rfl

theorem modelWindowOf_get_endpoint_stats (c : MetricsCollector)
    (e k : String) :
    modelWindowOf (get_endpoint_stats c e).2 k = modelWindowOf c k := by
  unfold modelWindowOf
  rw [get_endpoint_stats_snd_models]

theorem modelWindowOf_get_model_stats (c : MetricsCollector) (m k : String) :
    modelWindowOf (get_model_stats c m).2 k = modelWindowOf c k := by
  unfold modelWindowOf
  rw [get_model_stats_snd_times]
  exact getD_alookup_dget c.model_inference_times m k []

theorem lookup0_record_request_req_self (c : MetricsCollector) (e : String)
    (l : ℚ) (s : Int) :
    lookup0 (record_request c e l s).request_counts e =
      lookup0 c.request_counts e + 1 := by
  unfold lookup0 record_request
  dsimp only
  rw [alookup_dupdate_self]
  rfl

theorem lookup0_record_request_req_ne (c : MetricsCollector) (e k : String)
    (l : ℚ) (s : Int) (h : k ≠ e) :
    lookup0 (record_request c e l s).request_counts k =
      lookup0 c.request_counts k := by
  unfold lookup0 record_request
  dsimp only
  rw [alookup_dupdate_ne _ _ _ _ _ h]

theorem lookup0_record_request_err_self (c : MetricsCollector) (e : String)
    (l : ℚ) (s : Int) :
    lookup0 (record_request c e l s).error_counts e =
      lookup0 c.error_counts e + (if s ≥ 400 then 1 else 0) := by
  unfold lookup0 record_request
  dsimp only
  by_cases h : s ≥ 400
  · rw [if_pos h, if_pos h, alookup_dupdate_self]
    rfl
  · rw [if_neg h, if_neg h, Nat.add_zero]

theorem lookup0_record_request_err_ne (c : MetricsCollector) (e k : String)
    (l : ℚ) (s : Int) (h : k ≠ e) :
    lookup0 (record_request c e l s).error_counts k =
      lookup0 c.error_counts k := by
  unfold lookup0 record_request
  dsimp only
  by_cases h2 : s ≥ 400
  · rw [if_pos h2, alookup_dupdate_ne _ _ _ _ _ h]
  · rw [if_neg h2]

theorem lookup0_record_model_calls_self (c : MetricsCollector) (m : String)
    (t : ℚ) :
    lookup0 (record_model_inference c m t).model_call_counts m =
      lookup0 c.model_call_counts m + 1 := by
  unfold lookup0 record_model_inference
  dsimp only
  rw [alookup_dupdate_self]
  rfl

theorem lookup0_record_model_calls_ne (c : MetricsCollector) (m k : String)
    (t : ℚ) (h : k ≠ m) :
    lookup0 (record_model_inference c m t).model_call_counts k =
      lookup0 c.model_call_counts k := by
  unfold lookup0 record_model_inference
  dsimp only
  rw [alookup_dupdate_ne _ _ _ _ _ h]

theorem window_size_applyOp (c : MetricsCollector) (op : Op) :
    (applyOp c op).window_size = c.window_size := by
  cases op with
  | recordRequest e l s => rfl
  | recordModelInference m t => rfl
  | getEndpointStats e => exact get_endpoint_stats_snd_window_size c e
  | getModelStats m => exact get_model_stats_snd_window_size c m
  | resetMetrics now => rfl

theorem window_size_applyOps (c : MetricsCollector) (ops : List Op) :
    (applyOps c ops).window_size = c.window_size := by
  induction ops generalizing c with
  | nil => rfl
  | cons op ops ih =>
      rw [applyOps, List.foldl_cons]
      rw [show List.foldl applyOp (applyOp c op) ops =
        applyOps (applyOp c op) ops from rfl]
      rw [ih, window_size_applyOp]

/-! ### Invariant preservation -/

theorem alookup_mem {V : Type} (m : Dict V) (k : String) (v : V)
    (h : alookup m k = some v) : (k, v) ∈ m := by
  induction m with
  | nil => simp [alookup] at h
  | cons p rest ih =>
      obtain ⟨k2, v2⟩ := p
      by_cases h2 : k2 = k
      · subst h2
        simp [alookup] at h
        simp [h]
      · simp [alookup, h2] at h
        simp [ih h]

theorem windowsLE_applyOp (c : MetricsCollector) (op : Op)
    (h : WindowsLE c) : WindowsLE (applyOp c op) := by
  obtain ⟨h1, h2⟩ := h
  cases op with
  | recordRequest e l s =>
      constructor
      · intro p hp
        exact dupdate_forall (fun w => w.length ≤ c.window_size)
          c.endpoint_latencies e []
          (fun w => dequePush c.window_size w l) h1
          (length_dequePush_le _ _ _)
          (fun v _ => length_dequePush_le _ _ _) p hp
      · intro p hp
        exact h2 p hp
  | recordModelInference m t =>
      constructor
      · intro p hp
        exact h1 p hp
      · intro p hp
        exact dupdate_forall (fun w => w.length ≤ c.window_size)
          c.model_inference_times m []
          (fun w => dequePush c.window_size w t) h2
          (length_dequePush_le _ _ _)
          (fun v _ => length_dequePush_le _ _ _) p hp
  | getEndpointStats e =>
      constructor
      · intro p hp
        rw [show (applyOp c (Op.getEndpointStats e)).endpoint_latencies =
          (dget c.endpoint_latencies e []).2 from
          get_endpoint_stats_snd_latencies c e] at hp
        rw [show (applyOp c (Op.getEndpointStats e)).window_size =
          c.window_size from get_endpoint_stats_snd_window_size c e]
        exact dget_forall (fun w => w.length ≤ c.window_size)
          c.endpoint_latencies e [] h1 (by simp) p hp
      · intro p hp
        rw [show (applyOp c (Op.getEndpointStats e)).model_inference_times =
          c.model_inference_times from get_endpoint_stats_snd_models c e]
          at hp
        rw [show (applyOp c (Op.getEndpointStats e)).window_size =
          c.window_size from get_endpoint_stats_snd_window_size c e]
        exact h2 p hp
  | getModelStats m =>
      constructor
      · intro p hp
        rw [show (applyOp c (Op.getModelStats m)).endpoint_latencies =
          c.endpoint_latencies from get_model_stats_snd_latencies c m] at hp
        rw [show (applyOp c (Op.getModelStats m)).window_size =
          c.window_size from get_model_stats_snd_window_size c m]
        exact h1 p hp
      · intro p hp
        rw [show (applyOp c (Op.getModelStats m)).model_inference_times =
          (dget c.model_inference_times m []).2 from
          get_model_stats_snd_times c m] at hp
        rw [show (applyOp c (Op.getModelStats m)).window_size =
          c.window_size from get_model_stats_snd_window_size c m]
        exact dget_forall (fun w => w.length ≤ c.window_size)
          c.model_inference_times m [] h2 (by simp) p hp
  | resetMetrics now =>
      constructor
      · intro p hp
        exact absurd hp (by simp [applyOp, reset_metrics])
      · intro p hp
        exact absurd hp (by simp [applyOp, reset_metrics])

theorem windowsLE_applyOps (c : MetricsCollector) (ops : List Op)
    (h : WindowsLE c) : WindowsLE (applyOps c ops) := by
  induction ops generalizing c with
  | nil => exact h
  | cons op ops ih =>
      exact ih (applyOp c op) (windowsLE_applyOp c op h)

theorem windowsLE_init (W : Nat) (t0 : ℚ) : WindowsLE (init W t0) := by
  constructor <;> intro p hp <;> exact absurd hp (by simp [init])

theorem windowOf_length_le (c : MetricsCollector) (h : WindowsLE c)
    (k : String) : (windowOf c k).length ≤ c.window_size := by
  unfold windowOf
  cases hc : alookup c.endpoint_latencies k with
  | none => simp
  | some w =>
      simp only [Option.getD_some]
      exact h.1 (k, w) (alookup_mem _ _ _ hc)

theorem errorsLE_applyOp (c : MetricsCollector) (op : Op)
    (h : ErrorsLE c) : ErrorsLE (applyOp c op) := by
  cases op with
  | recordRequest e l s =>
      intro k
      by_cases hk : k = e
      · subst hk
        rw [show applyOp c (Op.recordRequest k l s) =
          record_request c k l s from rfl]
        rw [lookup0_record_request_req_self, lookup0_record_request_err_self]
        have hh := h k
        by_cases hs : s ≥ 400
        · rw [if_pos hs]
          omega
        · rw [if_neg hs]
          omega
      · rw [show applyOp c (Op.recordRequest e l s) =
          record_request c e l s from rfl]
        rw [lookup0_record_request_req_ne _ _ _ _ _ hk,
          lookup0_record_request_err_ne _ _ _ _ _ hk]
        exact h k
  | recordModelInference m t => exact h
  | getEndpointStats e =>
      intro k
      rw [show applyOp c (Op.getEndpointStats e) =
        (get_endpoint_stats c e).2 from rfl]
      rw [lookup0_get_endpoint_stats_req, lookup0_get_endpoint_stats_err]
      exact h k
  | getModelStats m =>
      intro k
      rw [show applyOp c (Op.getModelStats m) =
        (get_model_stats c m).2 from rfl]
      rw [get_model_stats_snd_req, get_model_stats_snd_err]
      exact h k
  | resetMetrics now =>
      intro k
      exact Nat.le_refl _

theorem errorsLE_applyOps (c : MetricsCollector) (ops : List Op)
    (h : ErrorsLE c) : ErrorsLE (applyOps c ops) := by
  induction ops generalizing c with
  | nil => exact h
  | cons op ops ih =>
      exact ih (applyOp c op) (errorsLE_applyOp c op h)

theorem errorsLE_init (W : Nat) (t0 : ℚ) : ErrorsLE (init W t0) := by
  intro k
  exact Nat.le_refl _

/-! ### Statistics for unobserved keys -/

theorem get_endpoint_stats_fst_empty (c : MetricsCollector) (k : String)
    (h : windowOf c k = []) :
    (get_endpoint_stats c k).1 = zeroEndpointStats k := by
  unfold get_endpoint_stats
  dsimp only
  have h1 : (dget c.endpoint_latencies k []).1 = [] := by
    rw [dget_fst]
    exact h
  rw [h1]
  simp [zeroEndpointStats]

theorem get_model_stats_fst_empty (c : MetricsCollector) (k : String)
    (h : modelWindowOf c k = []) :
    (get_model_stats c k).1 = zeroModelStats k := by
  unfold get_model_stats
  dsimp only
  have h1 : (dget c.model_inference_times k []).1 = [] := by
    rw [dget_fst]
    exact h
  rw [h1]
  simp [zeroModelStats]

theorem windowOf_applyOp_empty (c : MetricsCollector) (op : Op) (k : String)
    (hop : recordsEndpoint op k = false) (h : windowOf c k = []) :
    windowOf (applyOp c op) k = [] := by
  cases op with
  | recordRequest e l s =>
      have hk : k ≠ e := by
        simp [recordsEndpoint] at hop
        exact Ne.symm hop
      rw [show applyOp c (Op.recordRequest e l s) =
        record_request c e l s from rfl]
      rw [windowOf_record_request_ne _ _ _ _ _ hk]
      exact h
  | recordModelInference m t =>
      rw [show applyOp c (Op.recordModelInference m t) =
        record_model_inference c m t from rfl]
      rw [windowOf_record_model]
      exact h
  | getEndpointStats e =>
      rw [show applyOp c (Op.getEndpointStats e) =
        (get_endpoint_stats c e).2 from rfl]
      rw [windowOf_get_endpoint_stats]
      exact h
  | getModelStats m =>
      rw [show applyOp c (Op.getModelStats m) =
        (get_model_stats c m).2 from rfl]
      rw [windowOf_get_model_stats]
      exact h
  | resetMetrics now => exact windowOf_reset c now k

theorem windowOf_applyOps_empty (c : MetricsCollector) (ops : List Op)
    (k : String) (hops : ∀ op ∈ ops, recordsEndpoint op k = false)
    (h : windowOf c k = []) : windowOf (applyOps c ops) k = [] := by
  induction ops generalizing c with
  | nil => exact h
  | cons op ops ih =>
      exact ih (applyOp c op)
        (fun o ho => hops o (by simp [ho]))
        (windowOf_applyOp_empty c op k (hops op (by simp)) h)

theorem modelWindowOf_applyOp_empty (c : MetricsCollector) (op : Op)
    (k : String) (hop : recordsModel op k = false)
    (h : modelWindowOf c k = []) :
    modelWindowOf (applyOp c op) k = [] := by
  cases op with
  | recordRequest e l s =>
      rw [show applyOp c (Op.recordRequest e l s) =
        record_request c e l s from rfl]
      rw [modelWindowOf_record_request]
      exact h
  | recordModelInference m t =>
      have hk : k ≠ m := by
        simp [recordsModel] at hop
        exact Ne.symm hop
      rw [show applyOp c (Op.recordModelInference m t) =
        record_model_inference c m t from rfl]
      rw [modelWindowOf_record_model_ne _ _ _ _ hk]
      exact h
  | getEndpointStats e =>
      rw [show applyOp c (Op.getEndpointStats e) =
        (get_endpoint_stats c e).2 from rfl]
      rw [modelWindowOf_get_endpoint_stats]
      exact h
  | getModelStats m =>
      rw [show applyOp c (Op.getModelStats m) =
        (get_model_stats c m).2 from rfl]
      rw [modelWindowOf_get_model_stats]
      exact h
  | resetMetrics now => rfl

theorem modelWindowOf_applyOps_empty (c : MetricsCollector) (ops : List Op)
    (k : String) (hops : ∀ op ∈ ops, recordsModel op k = false)
    (h : modelWindowOf c k = []) :
    modelWindowOf (applyOps c ops) k = [] := by
  induction ops generalizing c with
  | nil => exact h
  | cons op ops ih =>
      exact ih (applyOp c op)
        (fun o ho => hops o (by simp [ho]))
        (modelWindowOf_applyOp_empty c op k (hops op (by simp)) h)

/-! ### Repeated recording to one key -/

theorem windowOf_recordAll_self (c : MetricsCollector) (e : String)
    (xs : List ℚ) :
    windowOf (recordAll c e xs) e =
      xs.foldl (dequePush c.window_size) (windowOf c e) := by
  induction xs generalizing c with
  | nil => rfl
  | cons x xs ih =>
      rw [recordAll, List.foldl_cons,
        show List.foldl (fun st y => record_request st e y 200)
          (record_request c e x 200) xs =
          recordAll (record_request c e x 200) e xs from rfl,
        ih (record_request c e x 200), List.foldl_cons,
        windowOf_record_request_self]
      rfl

theorem lookup0_recordAll_req (c : MetricsCollector) (e : String)
    (xs : List ℚ) :
    lookup0 (recordAll c e xs).request_counts e =
      lookup0 c.request_counts e + xs.length := by
  induction xs generalizing c with
  | nil => rfl
  | cons x xs ih =>
      rw [recordAll, List.foldl_cons,
        show List.foldl (fun st y => record_request st e y 200)
          (record_request c e x 200) xs =
          recordAll (record_request c e x 200) e xs from rfl,
        ih (record_request c e x 200), lookup0_record_request_req_self]
      simp [List.length_cons]
      omega

theorem window_size_recordAll (c : MetricsCollector) (e : String)
    (xs : List ℚ) : (recordAll c e xs).window_size = c.window_size := by
  induction xs generalizing c with
  | nil => rfl
  | cons x xs ih =>
      rw [recordAll, List.foldl_cons,
        show List.foldl (fun st y => record_request st e y 200)
          (record_request c e x 200) xs =
          recordAll (record_request c e x 200) e xs from rfl,
        ih (record_request c e x 200)]
      rfl

theorem modelWindowOf_recordAllModel_self (c : MetricsCollector)
    (m : String) (xs : List ℚ) :
    modelWindowOf (recordAllModel c m xs) m =
      xs.foldl (dequePush c.window_size) (modelWindowOf c m) := by
  induction xs generalizing c with
  | nil => rfl
  | cons x xs ih =>
      rw [recordAllModel, List.foldl_cons,
        show List.foldl (fun st y => record_model_inference st m y)
          (record_model_inference c m x) xs =
          recordAllModel (record_model_inference c m x) m xs from rfl,
        ih (record_model_inference c m x), List.foldl_cons,
        modelWindowOf_record_model_self]
      rfl

theorem lookup0_recordAllModel_calls (c : MetricsCollector) (m : String)
    (xs : List ℚ) :
    lookup0 (recordAllModel c m xs).model_call_counts m =
      lookup0 c.model_call_counts m + xs.length := by
  induction xs generalizing c with
  | nil => rfl
  | cons x xs ih =>
      rw [recordAllModel, List.foldl_cons,
        show List.foldl (fun st y => record_model_inference st m y)
          (record_model_inference c m x) xs =
          recordAllModel (record_model_inference c m x) m xs from rfl,
        ih (record_model_inference c m x), lookup0_record_model_calls_self]
      simp [List.length_cons]
      omega

/-! ### The aggregation folds of `get_summary` -/

theorem valsSum_endpointStatsAll_req (keys : List String)
    (c : MetricsCollector) :
    valsSum (endpointStatsAll keys c).2.request_counts =
      valsSum c.request_counts := by
  induction keys generalizing c with
  | nil => rfl
  | cons k ks ih =>
      rw [endpointStatsAll]
      dsimp only
      rw [ih, valsSum_get_endpoint_stats_req]

theorem valsSum_endpointStatsAll_err (keys : List String)
    (c : MetricsCollector) :
    valsSum (endpointStatsAll keys c).2.error_counts =
      valsSum c.error_counts := by
  induction keys generalizing c with
  | nil => rfl
  | cons k ks ih =>
      rw [endpointStatsAll]
      dsimp only
      rw [ih, valsSum_get_endpoint_stats_err]

theorem valsSum_modelStatsAll_req (keys : List String)
    (c : MetricsCollector) :
    valsSum (modelStatsAll keys c).2.request_counts =
      valsSum c.request_counts := by
  induction keys generalizing c with
  | nil => rfl
  | cons k ks ih =>
      rw [modelStatsAll]
      dsimp only
      rw [ih, get_model_stats_snd_req]

theorem valsSum_modelStatsAll_err (keys : List String)
    (c : MetricsCollector) :
    valsSum (modelStatsAll keys c).2.error_counts =
      valsSum c.error_counts := by
  induction keys generalizing c with
  | nil => rfl
  | cons k ks ih =>
      rw [modelStatsAll]
      dsimp only
      rw [ih, get_model_stats_snd_err]

theorem alookup_endpointStatsAll (keys : List String) (c : MetricsCollector)
    (k : String) (h : windowOf c k = []) (hm : k ∈ keys) :
    alookup (endpointStatsAll keys c).1 k = some (zeroEndpointStats k) := by
  induction keys generalizing c with
  | nil => cases hm
  | cons k1 ks ih =>
      rw [endpointStatsAll]
      dsimp only
      rw [alookup]
      by_cases hk : k1 = k
      · rw [if_pos hk]
        subst hk
        rw [get_endpoint_stats_fst_empty c k1 h]
      · rw [if_neg hk]
        have hm2 : k ∈ ks := by
          cases hm with
          | head => exact absurd rfl hk
          | tail _ hh => exact hh
        exact ih (get_endpoint_stats c k1).2
          (by rw [windowOf_get_endpoint_stats]; exact h) hm2

theorem alookup_modelStatsAll (keys : List String) (c : MetricsCollector)
    (k : String) (h : modelWindowOf c k = []) (hm : k ∈ keys) :
    alookup (modelStatsAll keys c).1 k = some (zeroModelStats k) := by
  induction keys generalizing c with
  | nil => cases hm
  | cons k1 ks ih =>
      rw [modelStatsAll]
      dsimp only
      rw [alookup]
      by_cases hk : k1 = k
      · rw [if_pos hk]
        subst hk
        rw [get_model_stats_fst_empty c k1 h]
      · rw [if_neg hk]
        have hm2 : k ∈ ks := by
          cases hm with
          | head => exact absurd rfl hk
          | tail _ hh => exact hh
        exact ih (get_model_stats c k1).2
          (by rw [modelWindowOf_get_model_stats]; exact h) hm2

/-! ### Statistics for observed keys -/

theorem get_endpoint_stats_fst_nonempty (c : MetricsCollector) (e : String)
    (he : windowOf c e ≠ []) :
    (get_endpoint_stats c e).1 =
      { endpoint := e
        total_requests := lookup0 c.request_counts e
        error_count := lookup0 c.error_counts e
        error_rate :=
          if lookup0 c.request_counts e > 0 then
            (lookup0 c.error_counts e : ℚ) / (lookup0 c.request_counts e : ℚ)
          else 0
        latency_p50 :=
          (sortAsc (windowOf c e)).getD ((windowOf c e).length * 50 / 100) 0
        latency_p95 :=
          (sortAsc (windowOf c e)).getD ((windowOf c e).length * 95 / 100) 0
        latency_p99 :=
          (sortAsc (windowOf c e)).getD ((windowOf c e).length * 99 / 100) 0
        avg_latency := (windowOf c e).sum / ((windowOf c e).length : ℚ) } := by
  unfold get_endpoint_stats
  dsimp only
  have h0 : (dget c.endpoint_latencies e []).1 = windowOf c e :=
    dget_fst c.endpoint_latencies e []
  rw [h0, if_neg (by simp [he])]
  dsimp only
  have hpos : 0 < (windowOf c e).length := List.length_pos.mpr he
  simp only [dget_fst, sortAsc, List.length_insertionSort]
  rw [if_pos hpos, if_pos hpos, if_pos hpos, if_pos hpos]
  rfl

theorem get_model_stats_fst_nonempty (c : MetricsCollector) (m : String)
    (hm : modelWindowOf c m ≠ []) :
    (get_model_stats c m).1 =
      { model := m
        total_calls := lookup0 c.model_call_counts m
        avg_inference_ms :=
          (modelWindowOf c m).sum / ((modelWindowOf c m).length : ℚ)
        p95_inference_ms :=
          (sortAsc (modelWindowOf c m)).getD
            ((modelWindowOf c m).length * 95 / 100) 0
        p99_inference_ms :=
          (sortAsc (modelWindowOf c m)).getD
            ((modelWindowOf c m).length * 99 / 100) 0 } := by
  unfold get_model_stats
  dsimp only
  have h0 : (dget c.model_inference_times m []).1 = modelWindowOf c m :=
    dget_fst c.model_inference_times m []
  rw [h0, if_neg (by simp [hm])]
  dsimp only
  have hpos : 0 < (modelWindowOf c m).length := List.length_pos.mpr hm
  simp only [dget_fst, sortAsc, List.length_insertionSort]
  rw [if_pos hpos, if_pos hpos]
  rfl

/-- On a non-empty snapshot the unclamped index the code computes already
lies within bounds, so it agrees with the spec's clamped nearest-rank
index. -/
theorem nearestRank_eq_unclamped (l : List ℚ) (num : Nat) (hl : l ≠ [])
    (hnum : num < 100) :
    nearestRank l num = (sortAsc l).getD (l.length * num / 100) 0 := by
  unfold nearestRank
  congr 1
  have hpos : 0 < l.length := List.length_pos.mpr hl
  have hlt : l.length * num / 100 < l.length := by
    rw [Nat.div_lt_iff_lt_mul (by norm_num)]
    exact mul_lt_mul_of_pos_left hnum hpos
  exact Nat.min_eq_left (by omega)

theorem endpointStatsAll_snd_models (keys : List String)
    (c : MetricsCollector) :
    (endpointStatsAll keys c).2.model_inference_times =
      c.model_inference_times := by
  induction keys generalizing c with
  | nil => rfl
  | cons k ks ih =>
      rw [endpointStatsAll]
      dsimp only
      rw [ih, get_endpoint_stats_snd_models]

/-! ### The claims -/

/-- C3: after any sequence of operations starting from a fresh registry,
`errors_total(key) ≤ requests_total(key)` for every key; and each
`record_request` increments the endpoint's request counter by exactly one
and its error counter by one iff `status_code ≥ 400`. -/
theorem errors_le_requests (W : Nat) (t0 : ℚ) (ops : List Op) (k : String)
    (c : MetricsCollector) (e : String) (l : ℚ) (s : Int) :
    lookup0 (applyOps (init W t0) ops).error_counts k ≤
      lookup0 (applyOps (init W t0) ops).request_counts k ∧
    lookup0 (record_request c e l s).request_counts e =
      lookup0 c.request_counts e + 1 ∧
    lookup0 (record_request c e l s).error_counts e =
      lookup0 c.error_counts e + (if s ≥ 400 then 1 else 0) :=
  ⟨errorsLE_applyOps (init W t0) ops (errorsLE_init W t0) k,
   lookup0_record_request_req_self c e l s,
   lookup0_record_request_err_self c e l s⟩

/-- C4: the instrumentation wrappers return the wrapped operation's outcome
(value or exception) unmodified, perform exactly one `record_request` /
`record_model_inference` per invocation — incrementing the key's counter by
exactly one — and on failure record the elapsed time with status 500. -/
theorem instrumentation_exactly_one_record {α : Type} (n : String)
    (func : Unit → Except String α) (t : ℚ) (c : MetricsCollector) :
    (monitor_endpoint_wrap n func t c).1 = func () ∧
    (monitor_endpoint_wrap n func t c).2 =
      record_request c n t
        (match func () with | .ok _ => 200 | .error _ => 500) ∧
    lookup0 (monitor_endpoint_wrap n func t c).2.request_counts n =
      lookup0 c.request_counts n + 1 ∧
    (monitor_model_inference_wrap n func t c).1 = func () ∧
    (monitor_model_inference_wrap n func t c).2 =
      record_model_inference c n t ∧
    lookup0 (monitor_model_inference_wrap n func t c).2.model_call_counts n =
      lookup0 c.model_call_counts n + 1 := by
  cases h : func () with
  | ok r =>
      simp [monitor_endpoint_wrap, monitor_model_inference_wrap, h,
        lookup0_record_request_req_self, lookup0_record_model_calls_self]
  | error err =>
      simp [monitor_endpoint_wrap, monitor_model_inference_wrap, h,
        lookup0_record_request_req_self, lookup0_record_model_calls_self]

/-- C5: `get_summary` immediately after `reset_metrics` reports zero totals
and empty endpoint/model maps, while `start_time` is unchanged by the reset,
so uptime is still measured from registry construction. -/
theorem summary_zero_after_reset (c : MetricsCollector) (treset now : ℚ)
    (sample : SystemMetrics) :
    (get_summary (reset_metrics c treset) now sample).1.total_requests = 0 ∧
    (get_summary (reset_metrics c treset) now sample).1.total_errors = 0 ∧
    (get_summary (reset_metrics c treset) now sample).1.endpoints = [] ∧
    (get_summary (reset_metrics c treset) now sample).1.models = [] ∧
    (reset_metrics c treset).start_time = c.start_time ∧
    (get_summary (reset_metrics c treset) now sample).1.uptime_seconds =
      now - c.start_time :=
  ⟨rfl, rfl, rfl, rfl, rfl, rfl⟩

/-- C9: a `get_system_metrics` call at or after the refresh interval takes
the fresh sample and updates both the cache and its timestamp; a second
call within the interval returns the cached snapshot bit-identically
(independently of what a fresh sample would read) and leaves the state
untouched. -/
theorem system_metrics_cache_behaviour (c : MetricsCollector) (t1 t2 : ℚ)
    (s1 s2 : SystemMetrics)
    (h1 : ¬(t1 - c.last_system_check < 5)) (h2 : t2 - t1 < 5) :
    get_system_metrics c t1 s1 =
      (s1, { c with system_metrics_cache := s1, last_system_check := t1 }) ∧
    get_system_metrics (get_system_metrics c t1 s1).2 t2 s2 =
      (s1, (get_system_metrics c t1 s1).2) := by
  have hfresh : get_system_metrics c t1 s1 =
      (s1,
       { c with system_metrics_cache := s1, last_system_check := t1 }) := by
    unfold get_system_metrics
    rw [if_neg h1]
  refine ⟨hfresh, ?_⟩
  rw [hfresh]
  unfold get_system_metrics
  dsimp only
  rw [if_pos h2]

/-- C9 witness: a registry fresh at epoch 0, sampled at t=10 and again at
t=12, hits the cache on the second call. -/
theorem system_metrics_cache_behaviour_witness :
    ¬((10 : ℚ) - (init 1000 0).last_system_check < 5) ∧
    ((12 : ℚ) - (10 : ℚ) < 5) ∧
    get_system_metrics
        (get_system_metrics (init 1000 0) 10 [("cpu_percent", 50)]).2 12 [] =
      ([("cpu_percent", 50)],
       (get_system_metrics (init 1000 0) 10 [("cpu_percent", 50)]).2) :=
  ⟨by norm_num [init], by norm_num,
   (system_metrics_cache_behaviour (init 1000 0) 10 12 [("cpu_percent", 50)]
     [] (by norm_num [init]) (by norm_num)).2⟩

/-- C1: on any non-empty snapshot, the percentile statistics of
`get_endpoint_stats` and `get_model_stats` are the nearest-rank percentiles
(sort ascending, index `⌊p·count⌋` clamped to `[0, count−1]`), and the
three-sample scenario `[100, 200, 300]` with all statuses 200 yields
exactly the stated statistics. -/
theorem percentile_stats_nearest_rank (c : MetricsCollector) (e m : String)
    (he : windowOf c e ≠ []) (hm : modelWindowOf c m ≠ []) :
    (get_endpoint_stats c e).1.latency_p50 = nearestRank (windowOf c e) 50 ∧
    (get_endpoint_stats c e).1.latency_p95 = nearestRank (windowOf c e) 95 ∧
    (get_endpoint_stats c e).1.latency_p99 = nearestRank (windowOf c e) 99 ∧
    (get_endpoint_stats c e).1.avg_latency =
      (windowOf c e).sum / ((windowOf c e).length : ℚ) ∧
    (get_model_stats c m).1.p95_inference_ms =
      nearestRank (modelWindowOf c m) 95 ∧
    (get_model_stats c m).1.p99_inference_ms =
      nearestRank (modelWindowOf c m) 99 ∧
    (get_endpoint_stats (recordAll (init 1000 0) "A" [100, 200, 300])
        "A").1 =
      { endpoint := "A", total_requests := 3, error_count := 0
        error_rate := 0, latency_p50 := 200, latency_p95 := 300
        latency_p99 := 300, avg_latency := 200 } := by
  refine ⟨?_, ?_, ?_, ?_, ?_, ?_, ?_⟩
  · rw [get_endpoint_stats_fst_nonempty c e he,
      nearestRank_eq_unclamped _ _ he (by norm_num)]
  · rw [get_endpoint_stats_fst_nonempty c e he,
      nearestRank_eq_unclamped _ _ he (by norm_num)]
  · rw [get_endpoint_stats_fst_nonempty c e he,
      nearestRank_eq_unclamped _ _ he (by norm_num)]
  · rw [get_endpoint_stats_fst_nonempty c e he]
  · rw [get_model_stats_fst_nonempty c m hm,
      nearestRank_eq_unclamped _ _ hm (by norm_num)]
  · rw [get_model_stats_fst_nonempty c m hm,
      nearestRank_eq_unclamped _ _ hm (by norm_num)]
  · have hwA : windowOf (recordAll (init 1000 0) "A" [100, 200, 300])
        "A" = [100, 200, 300] := by decide
    rw [get_endpoint_stats_fst_nonempty _ _ (by decide), hwA]
    have h1 : lookup0 (recordAll (init 1000 0) "A"
        [100, 200, 300]).request_counts "A" = 3 := by decide
    have h2 : lookup0 (recordAll (init 1000 0) "A"
        [100, 200, 300]).error_counts "A" = 0 := by decide
    rw [h1, h2]
    simp only [EndpointStats.mk.injEq]
    refine ⟨trivial, trivial, trivial, by norm_num, by decide, by decide,
      by decide, ?_⟩
    norm_num [List.sum_cons, List.sum_nil]

/-- C1 witness: a registry with requests `[100, 200, 300]` on endpoint "A"
and one inference time on model "M" satisfies the hypotheses and the P50
conclusion. -/
theorem percentile_stats_nearest_rank_witness :
    windowOf (record_model_inference (recordAll (init 1000 0) "A"
        [100, 200, 300]) "M" 7) "A" ≠ [] ∧
    modelWindowOf (record_model_inference (recordAll (init 1000 0) "A"
        [100, 200, 300]) "M" 7) "M" ≠ [] ∧
    (get_endpoint_stats (record_model_inference (recordAll (init 1000 0)
        "A" [100, 200, 300]) "M" 7) "A").1.latency_p50 =
      nearestRank (windowOf (record_model_inference (recordAll (init 1000 0)
        "A" [100, 200, 300]) "M" 7) "A") 50 :=
  ⟨by decide, by decide,
   (percentile_stats_nearest_rank
     (record_model_inference (recordAll (init 1000 0) "A" [100, 200, 300])
       "M" 7) "A" "M" (by decide) (by decide)).1⟩

/-- C2: after recording `window_size + k` samples (k > 0) to one key from a
fresh registry, the key's window holds exactly the last `window_size`
samples in insertion order while the counter (`requests_total`, resp.
`calls_total` for models) equals `window_size + k`; and after any operation
sequence every window's length is at most `window_size`. -/
theorem window_eviction_and_counters (W k : Nat) (e key : String)
    (samples : List ℚ) (ops : List Op) (t0 : ℚ)
    (hk : 0 < k) (hlen : samples.length = W + k) :
    windowOf (recordAll (init W t0) e samples) e = samples.drop k ∧
    (windowOf (recordAll (init W t0) e samples) e).length = W ∧
    lookup0 (recordAll (init W t0) e samples).request_counts e = W + k ∧
    modelWindowOf (recordAllModel (init W t0) e samples) e =
      samples.drop k ∧
    lookup0 (recordAllModel (init W t0) e samples).model_call_counts e =
      W + k ∧
    (windowOf (applyOps (init W t0) ops) key).length ≤ W := by
  have hwin : windowOf (recordAll (init W t0) e samples) e =
      samples.drop k := by
    rw [windowOf_recordAll_self,
      show windowOf (init W t0) e = [] from rfl,
      show (init W t0).window_size = W from rfl,
      foldl_dequePush W samples [] (by simp)]
    simp only [List.nil_append, List.length_nil, Nat.zero_add]
    congr 1
    omega
  have hmwin : modelWindowOf (recordAllModel (init W t0) e samples) e =
      samples.drop k := by
    rw [modelWindowOf_recordAllModel_self,
      show modelWindowOf (init W t0) e = [] from rfl,
      show (init W t0).window_size = W from rfl,
      foldl_dequePush W samples [] (by simp)]
    simp only [List.nil_append, List.length_nil, Nat.zero_add]
    congr 1
    omega
  refine ⟨hwin, ?_, ?_, hmwin, ?_, ?_⟩
  · rw [hwin, List.length_drop]
    omega
  · rw [lookup0_recordAll_req,
      show lookup0 (init W t0).request_counts e = 0 from rfl, hlen]
    omega
  · rw [lookup0_recordAllModel_calls,
      show lookup0 (init W t0).model_call_counts e = 0 from rfl, hlen]
    omega
  · have hle := windowOf_length_le (applyOps (init W t0) ops)
      (windowsLE_applyOps (init W t0) ops (windowsLE_init W t0)) key
    rwa [window_size_applyOps] at hle

/-- C2 witness: capacity 2, three samples `[10, 20, 30]`, and a small
mixed operation sequence. -/
theorem window_eviction_and_counters_witness :
    0 < 1 ∧ ([10, 20, 30] : List ℚ).length = 2 + 1 ∧
    windowOf (recordAll (init 2 0) "A" [10, 20, 30]) "A" =
      ([10, 20, 30] : List ℚ).drop 1 :=
  ⟨by decide, by decide,
   (window_eviction_and_counters 2 1 "A" "B" [10, 20, 30]
     [Op.recordRequest "B" 5 200, Op.getEndpointStats "Z",
      Op.resetMetrics 1, Op.recordRequest "B" 6 500] 0
     (by decide) (by decide)).1⟩

/-- C6 counterexample: after recording to "A" and resetting, "A" is no
longer a known key — `reset_metrics` empties the key maps via
`dict.clear()`, so keys known before the reset are not known afterwards. -/
theorem reset_removes_known_keys_cex :
    akeys (record_request (init 1000 0) "A" 100 200).endpoint_latencies =
      ["A"] ∧
    akeys (reset_metrics (record_request (init 1000 0) "A" 100 200)
        1).endpoint_latencies = [] := by
  decide

/-- C6 amended: `reset_metrics` clears all windows and counters for all
keys — removing every known key from the five maps — updates
`last_reset`, and leaves `start_time` untouched; subsequent writes to any
key (previously known or not) continue to work, because per-key structures
are recreated on demand. -/
theorem reset_clears_and_allows_rewrites (c : MetricsCollector) (now : ℚ)
    (e : String) (l : ℚ) (s : Int) (hW : 0 < c.window_size) :
    (reset_metrics c now).endpoint_latencies = [] ∧
    (reset_metrics c now).model_inference_times = [] ∧
    (reset_metrics c now).request_counts = [] ∧
    (reset_metrics c now).error_counts = [] ∧
    (reset_metrics c now).model_call_counts = [] ∧
    (reset_metrics c now).last_reset = now ∧
    (reset_metrics c now).start_time = c.start_time ∧
    lookup0 (record_request (reset_metrics c now) e l s).request_counts e =
      1 ∧
    windowOf (record_request (reset_metrics c now) e l s) e = [l] := by
  refine ⟨rfl, rfl, rfl, rfl, rfl, rfl, rfl, ?_, ?_⟩
  · rw [lookup0_record_request_req_self]
    rfl
  · rw [windowOf_record_request_self,
      show windowOf (reset_metrics c now) e = [] from rfl]
    unfold dequePush
    rw [if_pos (by simpa using hW)]
    rfl

/-- C6 amended witness: reset a fresh registry at t=5, then record to "A". -/
theorem reset_clears_and_allows_rewrites_witness :
    0 < (init 1000 0).window_size ∧
    windowOf (record_request (reset_metrics (init 1000 0) 5) "A" 7 200)
      "A" = [7] :=
  ⟨by decide,
   (reset_clears_and_allows_rewrites (init 1000 0) 5 "A" 7 200
     (by decide)).2.2.2.2.2.2.2.2⟩

/-- C7: for keys never recorded to (even if read before), the stats getters
return the all-zero shapes and never fail. -/
theorem unknown_key_zero_stats (W : Nat) (t0 : ℚ) (ops : List Op)
    (k m : String)
    (hk : ∀ op ∈ ops, recordsEndpoint op k = false)
    (hm : ∀ op ∈ ops, recordsModel op m = false) :
    (get_endpoint_stats (applyOps (init W t0) ops) k).1 =
      zeroEndpointStats k ∧
    (get_model_stats (applyOps (init W t0) ops) m).1 = zeroModelStats m :=
  ⟨get_endpoint_stats_fst_empty _ _
     (windowOf_applyOps_empty (init W t0) ops k hk rfl),
   get_model_stats_fst_empty _ _
     (modelWindowOf_applyOps_empty (init W t0) ops m hm rfl)⟩

/-- C7 witness: a sequence that records to other keys and reads "A" still
leaves "A" and "M" with all-zero stats. -/
theorem unknown_key_zero_stats_witness :
    (∀ op ∈ ([Op.recordRequest "B" 5 200, Op.getEndpointStats "A",
        Op.recordModelInference "N" 3] : List Op),
      recordsEndpoint op "A" = false) ∧
    (get_endpoint_stats (applyOps (init 4 0)
        [Op.recordRequest "B" 5 200, Op.getEndpointStats "A",
         Op.recordModelInference "N" 3]) "A").1 = zeroEndpointStats "A" :=
  ⟨by decide,
   (unknown_key_zero_stats 4 0
     [Op.recordRequest "B" 5 200, Op.getEndpointStats "A",
      Op.recordModelInference "N" 3] "A" "M"
     (by decide) (by decide)).1⟩

/-- C8: `get_summary` reports the totals as the sums of the per-key
counters, the overall error rate as `total_errors / total_requests` guarded
to 0 on zero requests, and requests-per-second as
`total_requests / uptime` guarded to 0 on zero uptime — it never divides
by zero. -/
theorem summary_totals_and_rates (c : MetricsCollector) (now : ℚ)
    (sample : SystemMetrics) :
    (get_summary c now sample).1.total_requests = valsSum c.request_counts ∧
    (get_summary c now sample).1.total_errors = valsSum c.error_counts ∧
    (get_summary c now sample).1.overall_error_rate =
      (if valsSum c.request_counts > 0 then
        (valsSum c.error_counts : ℚ) / (valsSum c.request_counts : ℚ)
       else 0) ∧
    (get_summary c now sample).1.requests_per_second =
      (if now - c.start_time > 0 then
        (valsSum c.request_counts : ℚ) / (now - c.start_time) else 0) ∧
    (get_summary c now sample).1.uptime_seconds = now - c.start_time := by
  unfold get_summary
  dsimp only
  rw [valsSum_modelStatsAll_req, valsSum_endpointStatsAll_req,
    valsSum_modelStatsAll_err, valsSum_endpointStatsAll_err]
  exact ⟨rfl, rfl, rfl, rfl, rfl⟩

/-- C10: reading stats for a never-recorded key mutates the registry — it
creates the key's empty window, making it a known key, so every subsequent
`get_summary` lists it with all-zero stats. -/
theorem get_stats_creates_key (c : MetricsCollector) (k m : String)
    (now : ℚ) (sample : SystemMetrics)
    (hk : alookup c.endpoint_latencies k = none)
    (hm : alookup c.model_inference_times m = none) :
    alookup (get_endpoint_stats c k).2.endpoint_latencies k = some [] ∧
    alookup (get_summary (get_endpoint_stats c k).2 now sample).1.endpoints
      k = some (zeroEndpointStats k) ∧
    alookup (get_model_stats c m).2.model_inference_times m = some [] ∧
    alookup (get_summary (get_model_stats c m).2 now sample).1.models m =
      some (zeroModelStats m) := by
  have h1 : alookup (get_endpoint_stats c k).2.endpoint_latencies k =
      some [] := by
    rw [get_endpoint_stats_snd_latencies, alookup_dget_snd]
    simp [hk]
  have hwin : windowOf (get_endpoint_stats c k).2 k = [] := by
    unfold windowOf
    rw [h1]
    rfl
  have hmem : k ∈ akeys (get_endpoint_stats c k).2.endpoint_latencies :=
    mem_akeys_of_alookup _ _ _ h1
  have h2 : alookup (get_summary (get_endpoint_stats c k).2 now
      sample).1.endpoints k = some (zeroEndpointStats k) := by
    unfold get_summary
    dsimp only
    exact alookup_endpointStatsAll _ _ _ hwin hmem
  have h3 : alookup (get_model_stats c m).2.model_inference_times m =
      some [] := by
    rw [get_model_stats_snd_times, alookup_dget_snd]
    simp [hm]
  have hmwin : modelWindowOf (get_model_stats c m).2 m = [] := by
    unfold modelWindowOf
    rw [h3]
    rfl
  have hmmem : m ∈ akeys (get_model_stats c m).2.model_inference_times :=
    mem_akeys_of_alookup _ _ _ h3
  have h4 : alookup (get_summary (get_model_stats c m).2 now
      sample).1.models m = some (zeroModelStats m) := by
    unfold get_summary
    dsimp only
    rw [endpointStatsAll_snd_models]
    apply alookup_modelStatsAll
    · unfold modelWindowOf
      rw [endpointStatsAll_snd_models]
      exact hmwin
    · exact hmmem
  exact ⟨h1, h2, h3, h4⟩

/-- C10 witness: reading "A" and "M" on a fresh registry creates both
keys. -/
theorem get_stats_creates_key_witness :
    alookup (init 1000 0).endpoint_latencies "A" = none ∧
    alookup (get_endpoint_stats (init 1000 0) "A").2.endpoint_latencies
      "A" = some [] :=
  ⟨rfl,
   (get_stats_creates_key (init 1000 0) "A" "M" 100 [] rfl rfl).1⟩

end Monitoring
